import Mathlib

/-!
Verification of the CNH wireless strain monitor core against its
natural-language specification.  The definitions below are shallow
embeddings of the Python sources: the binary message protocol
(src/communication/protocol.py), the data pipeline
(src/data/data_manager.py), the oscilloscope streaming API
(src/data/oscilloscope_api.py) and the BLE link simulator
(src/communication/ble_simulator.py).  Bytes are modelled as Nat
values below 256 and byte strings as List Nat.  The external
libraries used by the code (json, zlib, the Python builtin hash)
are modelled as function parameters, constrained only where a
theorem needs their documented contract.
-/

namespace MessageProtocol

/-- Magic constant MAGIC_NUMBER = 0xDACC from protocol.py. -/
def MAGIC_NUMBER : Nat := 0xDACC

/-- Fixed header size in bytes (HEADER_SIZE = 8). -/
def HEADER_SIZE : Nat := 8

/-- Maximum payload size in bytes (MAX_PAYLOAD_SIZE = 8192). -/
def MAX_PAYLOAD_SIZE : Nat := 8192

/-- Compression tags (class CompressionType): NONE = 0x00, ZLIB = 0x01. -/
def CompressionNONE : Nat := 0x00

/-- Compression tag for zlib compression. -/
def CompressionZLIB : Nat := 0x01

/-- Message type tags from class MessageType in protocol.py. -/
def PING : Nat := 0x01

/-- Message type tag PONG. -/
def PONG : Nat := 0x02

/-- One iteration of the inner loop of MessageProtocol._calculate_crc16:
shift left, conditionally fold in the polynomial 0x1021, and mask to 16
bits, exactly as the Python loop body does. -/
def crc16_step (crc : Nat) : Nat :=
  if crc &&& 0x8000 ≠ 0 then ((crc <<< 1) ^^^ 0x1021) &&& 0xFFFF
  else (crc <<< 1) &&& 0xFFFF

/-- Processing of one byte by _calculate_crc16: xor the byte into the
high half of the register, then run the 8 shift iterations. -/
def crc16_update (crc b : Nat) : Nat := crc16_step^[8] (crc ^^^ (b <<< 8))

/-- MessageProtocol._calculate_crc16: CRC-16/CCITT with initial value
0xFFFF and polynomial 0x1021 over a byte string. -/
def calculate_crc16 (data : List Nat) : Nat := data.foldl crc16_update 0xFFFF

/-- Big-endian packing of a 16-bit value, as struct.pack format H does. -/
def pack16 (n : Nat) : List Nat := [n / 256 % 256, n % 256]

/-- Big-endian decoding of two bytes, as struct.unpack format H does. -/
def unpack16 (hi lo : Nat) : Nat := 256 * hi + lo

/-- A payload handed to create_message: either a structured dict
(abstract type, serialized by the json library) or raw bytes. -/
inductive Payload (α : Type) where
  | dict (d : α)
  | bytes (b : List Nat)
deriving DecidableEq

/-- The record parse_message returns on success. -/
structure ParsedMessage (α : Type) where
  msg_type : Nat
  compression : Nat
  payload : Payload α
  checksum : Nat
deriving DecidableEq

/-- Failure reasons of create_message. payloadTooLarge is the explicit
size check; packFailed models struct.pack rejecting a header field that
does not fit its byte.  Both surface as a ProtocolError exception. -/
inductive CreateError where
  | payloadTooLarge
  | packFailed
deriving DecidableEq

/-- Failure reasons of parse_message, one per raise site of the Python
function.  All of them surface as a ProtocolError exception. -/
inductive ParseError where
  | headerTooShort
  | badMagic
  | truncated
  | checksumMismatch
  | decompressFailed
deriving DecidableEq

/-- The payload serialization step of create_message: a dict payload
goes through json.dumps and utf-8 encoding (modelled by the dumps
parameter), raw bytes pass through unchanged. -/
def serialized_payload {α : Type} (dumps : α → List Nat) :
    Payload α → List Nat
  | .dict d => dumps d
  | .bytes b => b

/-- The payload bytes actually framed by create_message: the serialized
payload, compressed when the ZLIB tag was requested. -/
def wire_payload {α : Type} (dumps : α → List Nat)
    (compress : List Nat → List Nat) (payload : Payload α)
    (compression : Nat) : List Nat :=
  if compression = CompressionZLIB then
    compress (serialized_payload dumps payload)
  else serialized_payload dumps payload

/-- MessageProtocol.create_message.  dumps models json.dumps followed by
utf-8 encoding, compress models zlib.compress; both are external
libraries, passed as parameters.  The order of the checks follows the
source: serialize, optionally compress, size check, checksum, header;
struct.pack rejecting an oversized header byte is the packFailed case. -/
def create_message {α : Type} (dumps : α → List Nat)
    (compress : List Nat → List Nat) (message_type : Nat)
    (payload : Payload α) (compression : Nat) :
    Except CreateError (List Nat) :=
  let payload_bytes := wire_payload dumps compress payload compression
  if MAX_PAYLOAD_SIZE < payload_bytes.length then .error .payloadTooLarge
  else if 256 ≤ message_type ∨ 256 ≤ compression then .error .packFailed
  else
    .ok (pack16 MAGIC_NUMBER ++ [message_type, compression] ++
      pack16 payload_bytes.length ++ pack16 (calculate_crc16 payload_bytes) ++
      payload_bytes)

/-- MessageProtocol.parse_message.  loads models utf-8 decoding followed
by json.loads (None when either step fails, in which case the code keeps
the raw bytes); decompress models zlib.decompress (None when it raises). -/
def parse_message {α : Type} (loads : List Nat → Option α)
    (decompress : List Nat → Option (List Nat)) (data : List Nat) :
    Except ParseError (ParsedMessage α) :=
  if data.length < HEADER_SIZE then .error .headerTooShort
  else
    let magic := unpack16 (data.getD 0 0) (data.getD 1 0)
    let msg_type := data.getD 2 0
    let compression := data.getD 3 0
    let payload_len := unpack16 (data.getD 4 0) (data.getD 5 0)
    let checksum := unpack16 (data.getD 6 0) (data.getD 7 0)
    if magic ≠ MAGIC_NUMBER then .error .badMagic
    else if data.length < HEADER_SIZE + payload_len then .error .truncated
    else
      let payload_bytes := (data.drop HEADER_SIZE).take payload_len
      if calculate_crc16 payload_bytes ≠ checksum then .error .checksumMismatch
      else
        match (if compression = CompressionZLIB then decompress payload_bytes
               else some payload_bytes) with
        | none => .error .decompressFailed
        | some pb =>
          .ok { msg_type := msg_type, compression := compression,
                payload :=
                  match loads pb with
                  | some d => Payload.dict d
                  | none => Payload.bytes pb,
                checksum := checksum }

/-- The payload an honest decoder is expected to deliver for a given
encoder input: a dict comes back as itself, raw bytes come back either
verbatim or, when they happen to be decodable structured data, as the
equivalent structured value (the documented json fallback). -/
def decoded_payload {α : Type} (loads : List Nat → Option α) :
    Payload α → Payload α
  | .dict d => .dict d
  | .bytes b =>
    match loads b with
    | some d => Payload.dict d
    | none => Payload.bytes b

end MessageProtocol

/-- StrainReading from src/core/models.py.  Timestamps are modelled as
Nat (datetime values ordered by time; isoformat is an injective string
encoding, modelled by toString).  The float fields strain_value and
temperature are modelled as Int, which is enough for every claim.  The
checksum string produced by the Python builtin hash is modelled as an
Int computed by an abstract hash function parameter. -/
structure StrainReading where
  timestamp : Nat
  strain_value : Int
  raw_adc_value : Int
  sensor_id : String
  battery_level : Int
  temperature : Int
  checksum : Option Int
deriving DecidableEq

/-- The string hashed by StrainReading._calculate_checksum: the f-string
interpolates timestamp.isoformat(), strain_value, raw_adc_value and
battery_level, and nothing else. -/
def StrainReading.data_str (r : StrainReading) : String :=
  toString r.timestamp ++ toString r.strain_value ++
    toString r.raw_adc_value ++ toString r.battery_level

/-- StrainReading._calculate_checksum with the Python builtin hash
abstracted as a parameter. -/
def StrainReading.calculate_checksum (r : StrainReading)
    (hash : String → Int) : Int :=
  hash r.data_str

/-- StrainReading.__post_init__: compute the checksum when it was not
supplied by the caller. -/
def mkStrainReading (hash : String → Int) (timestamp : Nat)
    (strain_value raw_adc_value : Int) (sensor_id : String)
    (battery_level temperature : Int) (checksum : Option Int) :
    StrainReading :=
  let r : StrainReading :=
    { timestamp, strain_value, raw_adc_value, sensor_id,
      battery_level, temperature, checksum }
  match checksum with
  | some _ => r
  | none => { r with checksum := some (r.calculate_checksum hash) }

/-- StrainReading.is_valid: checksum matches, battery in 0..100,
temperature in -40..85. -/
def StrainReading.is_valid (r : StrainReading) (hash : String → Int) : Bool :=
  r.checksum == some (r.calculate_checksum hash) &&
  decide (0 ≤ r.battery_level) && decide (r.battery_level ≤ 100) &&
  decide (-40 ≤ r.temperature) && decide (r.temperature ≤ 85)

/-- Python list slicing l[-n:], which returns the whole list when n = 0. -/
def sliceLast {α : Type} (n : Nat) (l : List α) : List α :=
  if n = 0 then l else l.drop (l.length - n)

/-- Stable insertion of a reading into a list ordered by timestamp: the
inserted element goes before the first element with an equal or larger
timestamp, which is exactly where the stable Python list.sort keeps an
element that arrived earlier than the rest of the list. -/
def insertByTimestamp (x : StrainReading) :
    List StrainReading → List StrainReading
  | [] => [x]
  | y :: ys =>
    if x.timestamp ≤ y.timestamp then x :: y :: ys
    else y :: insertByTimestamp x ys

/-- Model of readings.sort(key=timestamp), the stable ascending sort used
by DataBuffer.get_readings and DataManager.get_recent_readings.  A stable
sort by a key is extensionally unique, so insertion sort is a faithful
model of the Python sort. -/
def sortByTimestamp : List StrainReading → List StrainReading
  | [] => []
  | x :: xs => insertByTimestamp x (sortByTimestamp xs)

/-- Stable descending insertion, used to model ORDER BY timestamp DESC. -/
def insertByTimestampDesc (x : StrainReading) :
    List StrainReading → List StrainReading
  | [] => [x]
  | y :: ys =>
    if y.timestamp ≤ x.timestamp then x :: y :: ys
    else y :: insertByTimestampDesc x ys

/-- Model of ORDER BY timestamp DESC over the stored rows. -/
def sortByTimestampDesc : List StrainReading → List StrainReading
  | [] => []
  | x :: xs => insertByTimestampDesc x (sortByTimestampDesc xs)

/-- Optional sensor filter; Python treats an empty string as falsy, in
which case no filter is applied. -/
def filterSensor (sensor_id : Option String) (l : List StrainReading) :
    List StrainReading :=
  match sensor_id with
  | none => l
  | some s => if s = "" then l else l.filter (fun r => r.sensor_id == s)

/-- Optional lower time bound (timestamp >= start_time). -/
def filterStart (start_time : Option Nat) (l : List StrainReading) :
    List StrainReading :=
  match start_time with
  | none => l
  | some t => l.filter (fun r => decide (t ≤ r.timestamp))

/-- Optional upper time bound (timestamp <= end_time). -/
def filterEnd (end_time : Option Nat) (l : List StrainReading) :
    List StrainReading :=
  match end_time with
  | none => l
  | some t => l.filter (fun r => decide (r.timestamp ≤ t))

/-- DataBuffer from data_manager.py: the Ingest Buffer.  Wall-clock
times (datetime.now) are modelled as Nat values passed in explicitly. -/
structure DataBuffer where
  buffer : List StrainReading
  max_size : Nat
  flush_interval : Nat
  last_flush : Nat
deriving DecidableEq

/-- DataBuffer.add_reading: append, then pop the oldest element once if
the buffer exceeds max_size. -/
def DataBuffer.add_reading (b : DataBuffer) (r : StrainReading) :
    DataBuffer :=
  let l := b.buffer ++ [r]
  if b.max_size < l.length then { b with buffer := l.drop 1 }
  else { b with buffer := l }

/-- DataBuffer.add_readings: extend, then drop the excess oldest
elements down to max_size. -/
def DataBuffer.add_readings (b : DataBuffer) (rs : List StrainReading) :
    DataBuffer :=
  let l := b.buffer ++ rs
  if b.max_size < l.length then
    { b with buffer := l.drop (l.length - b.max_size) }
  else { b with buffer := l }

/-- DataBuffer.get_readings: copy, filter by sensor and time bounds,
sort by timestamp, keep the most recent max_count when the (truthy)
limit is exceeded. -/
def DataBuffer.get_readings (b : DataBuffer) (sensor_id : Option String)
    (start_time end_time : Option Nat) (max_count : Option Nat) :
    List StrainReading :=
  let readings :=
    filterEnd end_time (filterStart start_time (filterSensor sensor_id b.buffer))
  let readings := sortByTimestamp readings
  match max_count with
  | none => readings
  | some n =>
    if n ≠ 0 ∧ n < readings.length then sliceLast n readings else readings

/-- DataBuffer.should_flush: buffer at capacity or flush interval
elapsed since the last flush. -/
def DataBuffer.should_flush (b : DataBuffer) (now : Nat) : Bool :=
  decide (b.max_size ≤ b.buffer.length) ||
  decide (b.flush_interval ≤ now - b.last_flush)

/-- DatabaseManager restricted to the strain_readings table: an
append-only list of rows mirroring StrainReading fields. -/
structure DatabaseManager where
  rows : List StrainReading
deriving DecidableEq

/-- DatabaseManager.store_readings: batch INSERT, appending in order. -/
def DatabaseManager.store_readings (db : DatabaseManager)
    (rs : List StrainReading) : DatabaseManager :=
  { rows := db.rows ++ rs }

/-- DatabaseManager.get_readings: WHERE filters, ORDER BY timestamp
DESC, optional (truthy) LIMIT. -/
def DatabaseManager.get_readings (db : DatabaseManager)
    (sensor_id : Option String) (start_time end_time : Option Nat)
    (limit : Option Nat) : List StrainReading :=
  let rows :=
    filterEnd end_time (filterStart start_time (filterSensor sensor_id db.rows))
  let rows := sortByTimestampDesc rows
  match limit with
  | none => rows
  | some n => if n = 0 then rows else rows.take n

/-- One point of a per-sensor oscilloscope stream, the dict built by
OscilloscopeStreamer.add_reading.  The conversion of the timestamp to
epoch milliseconds is an injective monotone unit change, modelled as the
identity on the Nat timestamp. -/
structure StreamPoint where
  t : Nat
  v : Int
  r : Int
  b : Int
  temp : Int
deriving DecidableEq

/-- The data point add_reading derives from a reading. -/
def StrainReading.toStreamPoint (rd : StrainReading) : StreamPoint :=
  { t := rd.timestamp, v := rd.strain_value, r := rd.raw_adc_value,
    b := rd.battery_level, temp := rd.temperature }

/-- OscilloscopeStreamer: per-sensor Ring Buffers, modelled as a total
map from sensor id to its stream (absent sensors map to []). -/
structure OscilloscopeStreamer where
  data_streams : String → List StreamPoint
  max_points : Nat

/-- OscilloscopeStreamer.add_reading: append the point to the sensor
stream, then pop the oldest point once if the stream exceeds
max_points. -/
def OscilloscopeStreamer.add_reading (st : OscilloscopeStreamer)
    (reading : StrainReading) : OscilloscopeStreamer :=
  let stream := st.data_streams reading.sensor_id ++ [reading.toStreamPoint]
  let stream := if st.max_points < stream.length then stream.drop 1 else stream
  { st with data_streams :=
      fun sid => if sid = reading.sensor_id then stream
                 else st.data_streams sid }

/-- OscilloscopeStreamer.get_stream_data: the whole stream, or the
last_n most recent points via Python slicing. -/
def OscilloscopeStreamer.get_stream_data (st : OscilloscopeStreamer)
    (sensor_id : String) (last_n : Option Nat) : List StreamPoint :=
  let stream := st.data_streams sensor_id
  match last_n with
  | some n => sliceLast n stream
  | none => stream

/-- DataManager from data_manager.py: Ingest Buffer, Durable Store and
Ring Buffers composed. -/
structure DataManager where
  buffer : DataBuffer
  database : DatabaseManager
  oscilloscope_streamer : OscilloscopeStreamer

/-- DataManager._flush_buffer: read the (sorted) buffer contents, bulk
insert them, clear the buffer and reset the flush timer; nothing happens
on an empty buffer. -/
def DataManager.flush_buffer (m : DataManager) (now : Nat) : DataManager :=
  let readings := m.buffer.get_readings none none none none
  if readings = [] then m
  else
    { m with database := m.database.store_readings readings,
             buffer := { m.buffer with buffer := [], last_flush := now } }

/-- DataManager.add_reading: append the reading to the Ingest Buffer and
the Ring Buffer, then flush if the size or time threshold is reached. -/
def DataManager.add_reading (m : DataManager) (now : Nat)
    (reading : StrainReading) : DataManager :=
  let m' := { m with buffer := m.buffer.add_reading reading,
                     oscilloscope_streamer :=
                       m.oscilloscope_streamer.add_reading reading }
  if m'.buffer.should_flush now then m'.flush_buffer now else m'

/-- DataManager.add_readings: batch variant of add_reading. -/
def DataManager.add_readings (m : DataManager) (now : Nat)
    (readings : List StrainReading) : DataManager :=
  let m' := { m with buffer := m.buffer.add_readings readings,
                     oscilloscope_streamer :=
                       readings.foldl OscilloscopeStreamer.add_reading
                         m.oscilloscope_streamer }
  if m'.buffer.should_flush now then m'.flush_buffer now else m'

/-- The dedup key of get_recent_readings: (timestamp, sensor_id). -/
def dedupKey (r : StrainReading) : Nat × String := (r.timestamp, r.sensor_id)

/-- The dedup loop of get_recent_readings: keep the first occurrence of
every key, carrying the set of keys already seen. -/
def dedupByKey : List StrainReading → List (Nat × String) → List StrainReading
  | [], _ => []
  | r :: rest, seen =>
    if dedupKey r ∈ seen then dedupByKey rest seen
    else r :: dedupByKey rest (dedupKey r :: seen)

/-- DataManager.get_recent_readings: merge buffer and store rows of the
window, sort by timestamp, deduplicate by (timestamp, sensor_id), keep
the most recent max_count when the (truthy) limit is exceeded. -/
def DataManager.get_recent_readings (m : DataManager) (now : Nat)
    (sensor_id : Option String) (minutes : Nat) (max_count : Option Nat) :
    List StrainReading :=
  let start_time := now - minutes * 60
  let buffer_readings := m.buffer.get_readings sensor_id (some start_time) none none
  let db_readings := m.database.get_readings sensor_id (some start_time) none max_count
  let all_readings := sortByTimestamp (buffer_readings ++ db_readings)
  let unique_readings := dedupByKey all_readings []
  match max_count with
  | none => unique_readings
  | some n =>
    if n ≠ 0 ∧ n < unique_readings.length then sliceLast n unique_readings
    else unique_readings

/-- One ingest event of the pipeline, tagged with the wall-clock time at
which it happens. -/
inductive IngestOp where
  | single (now : Nat) (reading : StrainReading)
  | batch (now : Nat) (readings : List StrainReading)

/-- Dispatch of one ingest event. -/
def DataManager.apply_op (m : DataManager) : IngestOp → DataManager
  | .single now r => m.add_reading now r
  | .batch now rs => m.add_readings now rs

/-- A whole sequence of ingest calls. -/
def DataManager.run_ops (m : DataManager) (ops : List IngestOp) : DataManager :=
  ops.foldl DataManager.apply_op m

/-- A freshly constructed DataManager: empty buffer, empty store, empty
streams. -/
def initManager (max_size flush_interval max_points : Nat) : DataManager :=
  { buffer := { buffer := [], max_size, flush_interval, last_flush := 0 },
    database := { rows := [] },
    oscilloscope_streamer := { data_streams := fun _ => [], max_points } }

/-- The record returned by OscilloscopeAPI.get_streaming_data. -/
structure StreamingData where
  sensor_id : String
  new_points : Nat
  data : List StreamPoint
  latest_timestamp : Option Nat
  has_more : Bool
deriving DecidableEq

/-- OscilloscopeAPI._empty_streaming_data; its latest_timestamp is the
current wall clock in milliseconds. -/
def empty_streaming_data (nowMs : Nat) : StreamingData :=
  { sensor_id := "", new_points := 0, data := [],
    latest_timestamp := some nowMs, has_more := false }

/-- OscilloscopeAPI.get_streaming_data: fetch the whole sensor stream
through DataManager.get_oscilloscope_data, return the empty shape when
the sensor has no stream, otherwise keep the points strictly newer than
the cursor. -/
def OscilloscopeAPI.get_streaming_data (m : DataManager) (nowMs : Nat)
    (sensor_id : String) (since_timestamp : Option Nat) : StreamingData :=
  let stream_data := m.oscilloscope_streamer.get_stream_data sensor_id none
  if stream_data = [] then empty_streaming_data nowMs
  else
    let stream_data :=
      match since_timestamp with
      | some ts => stream_data.filter (fun p => decide (ts < p.t))
      | none => stream_data
    { sensor_id := sensor_id,
      new_points := stream_data.length,
      data := stream_data,
      latest_timestamp :=
        match stream_data.getLast? with
        | some p => some p.t
        | none => since_timestamp,
      has_more := decide (0 < stream_data.length) }

/-- BLEConnectionState from ble_simulator.py. -/
inductive BLEConnectionState where
  | disconnected
  | scanning
  | connecting
  | connected
  | error
deriving DecidableEq

/-- The state of BLESimulator relevant to connect and disconnect:
devices are identified by their address, keep-alive tasks by the address
they serve, and scan_task_alive records whether a scan loop task is
currently running. -/
structure BLESimulator where
  state : BLEConnectionState
  discovered_devices : List String
  connected_devices : List String
  connection_tasks : List String
  scan_task_alive : Bool
deriving DecidableEq

/-- BLESimulator.disconnect: early return when the address is not
connected; otherwise cancel and remove the keep-alive task, remove the
peer, and set the state to disconnected when no peers remain. -/
def BLESimulator.disconnect (s : BLESimulator) (address : String) :
    BLESimulator :=
  if address ∉ s.connected_devices then s
  else
    let tasks := s.connection_tasks.erase address
    let connected := s.connected_devices.erase address
    { s with connection_tasks := tasks,
             connected_devices := connected,
             state := if connected = [] then .disconnected else s.state }

/-- The buffer-bound invariant of C8: the Ingest Buffer and every
per-sensor Ring Buffer hold at most their configured capacity. -/
def bufferInvariant (m : DataManager) : Prop :=
  m.buffer.buffer.length ≤ m.buffer.max_size ∧
  ∀ sid, (m.oscilloscope_streamer.data_streams sid).length ≤
    m.oscilloscope_streamer.max_points

/-- A buffered reading used by concrete witnesses. -/
def rBuf : StrainReading :=
  { timestamp := 100, strain_value := 1, raw_adc_value := 10,
    sensor_id := "S1", battery_level := 50, temperature := 20,
    checksum := some 0 }

/-- A stored row sharing the (timestamp, sensor) key of rBuf but holding
a different value. -/
def rDb : StrainReading := { rBuf with strain_value := 2 }

/-- A concrete DataManager holding one buffered reading and one stored
row with the same dedup key. -/
def m4 : DataManager :=
  { buffer := { buffer := [rBuf], max_size := 10, flush_interval := 1000,
                last_flush := 0 },
    database := { rows := [rDb] },
    oscilloscope_streamer := { data_streams := fun _ => [], max_points := 5 } }

/-- Four distinct readings of one sensor, used for Scenario B. -/
def rS1 : StrainReading :=
  { timestamp := 1, strain_value := 11, raw_adc_value := 0,
    sensor_id := "S1", battery_level := 50, temperature := 20,
    checksum := some 0 }

/-- Second Scenario B reading. -/
def rS2 : StrainReading := { rS1 with timestamp := 2, strain_value := 12 }

/-- Third Scenario B reading. -/
def rS3 : StrainReading := { rS1 with timestamp := 3, strain_value := 13 }

/-- Fourth Scenario B reading. -/
def rS4 : StrainReading := { rS1 with timestamp := 4, strain_value := 14 }

/-- The Scenario B pipeline: capacity 3, long flush interval, four
ingests of the same sensor through DataManager.add_reading. -/
def scenarioB : DataManager :=
  ((((initManager 3 1000000 100).add_reading 1 rS1).add_reading 2
    rS2).add_reading 3 rS3).add_reading 4 rS4

/-- Three readings appended for the streaming Scenario E. -/
def wS1 : StrainReading :=
  { timestamp := 10, strain_value := 1, raw_adc_value := 0,
    sensor_id := "S1", battery_level := 50, temperature := 20,
    checksum := some 0 }

/-- Second Scenario E reading. -/
def wS2 : StrainReading := { wS1 with timestamp := 20 }

/-- Third Scenario E reading. -/
def wS3 : StrainReading := { wS1 with timestamp := 30 }

/-- The Scenario E pipeline after three appends. -/
def scenarioE : DataManager :=
  (((initManager 100 1000 100).add_reading 10 wS1).add_reading 20
    wS2).add_reading 30 wS3

/-- A BLE simulator state with one connected peer, its keep-alive task,
and a live scan task. -/
def s5 : BLESimulator :=
  { state := .connected, discovered_devices := ["AA"],
    connected_devices := ["AA"], connection_tasks := ["AA"],
    scan_task_alive := true }

/-- Concrete serializer instance for witnesses: the json encoding of the
empty dict is the two bytes of the two brace characters. -/
def dumps0 : Unit → List Nat := fun _ => [123, 125]

/-- Concrete json decoder instance for witnesses, inverse of dumps0 on
its image. -/
def loads0 : List Nat → Option Unit :=
  fun b => if b = [123, 125] then some () else none

/-- The frame produced by Encode(PING, {}) without compression. -/
def ping_frame : List Nat :=
  (MessageProtocol.create_message dumps0 id MessageProtocol.PING
    (MessageProtocol.Payload.dict ()) 0).toOption.getD []

namespace MessageProtocol

theorem crc16_step_lt (x : Nat) : crc16_step x < 65536 := by
  unfold crc16_step
  split
  · have h : ((x <<< 1) ^^^ 0x1021) &&& 0xFFFF ≤ 0xFFFF := Nat.and_le_right
    omega
  · have h : (x <<< 1) &&& 0xFFFF ≤ 0xFFFF := Nat.and_le_right
    omega

theorem and_pow15_ne_zero_iff (x : Nat) :
    x &&& 0x8000 ≠ 0 ↔ x.testBit 15 = true := by
  constructor
  · intro h
    obtain ⟨i, hi⟩ := Nat.ne_zero_implies_bit_true h
    rw [Nat.testBit_and] at hi
    have h1 : x.testBit i = true := by
      cases hx : x.testBit i
      · rw [hx] at hi; simp at hi
      · rfl
    have h2 : (0x8000 : Nat).testBit i = true := by
      cases hp : (0x8000 : Nat).testBit i
      · rw [hp] at hi; simp at hi
      · rfl
    rw [show (0x8000 : Nat) = 2 ^ 15 by norm_num, Nat.testBit_two_pow] at h2
    have : (15 : Nat) = i := of_decide_eq_true h2
    rwa [this]
  · intro h h0
    have hbit : (x &&& 0x8000).testBit 15 = true := by
      rw [Nat.testBit_and, h,
        show (0x8000 : Nat) = 2 ^ 15 by norm_num, Nat.testBit_two_pow]
      simp
    rw [h0] at hbit
    simp at hbit

theorem crc16_step_eq (x : Nat) :
    crc16_step x =
      ((x <<< 1) ^^^ (if x.testBit 15 then 0x1021 else 0)) &&& 0xFFFF := by
  unfold crc16_step
  by_cases h : x.testBit 15 = true
  · rw [if_pos ((and_pow15_ne_zero_iff x).mpr h), if_pos h]
  · rw [if_neg (fun hc => h ((and_pow15_ne_zero_iff x).mp hc)), if_neg h,
      Nat.xor_zero]

theorem xor_shiftLeft_distrib (a b n : Nat) :
    (a ^^^ b) <<< n = (a <<< n) ^^^ (b <<< n) := by
  apply Nat.eq_of_testBit_eq
  intro i
  simp only [Nat.testBit_shiftLeft, Nat.testBit_xor]
  cases decide (i ≥ n) <;> simp

theorem xor_xor_xor_comm (a b c d : Nat) :
    (a ^^^ b) ^^^ (c ^^^ d) = (a ^^^ c) ^^^ (b ^^^ d) := by
  apply Nat.eq_of_testBit_eq
  intro i
  simp only [Nat.testBit_xor]
  cases a.testBit i <;> cases b.testBit i <;> cases c.testBit i <;>
    cases d.testBit i <;> rfl

theorem crc_poly_if_xor (x y : Nat) :
    (if (x ^^^ y).testBit 15 then (0x1021 : Nat) else 0) =
      (if x.testBit 15 then (0x1021 : Nat) else 0) ^^^
        (if y.testBit 15 then (0x1021 : Nat) else 0) := by
  simp only [Nat.testBit_xor]
  cases x.testBit 15 <;> cases y.testBit 15 <;> simp

theorem crc16_step_xor (x y : Nat) :
    crc16_step (x ^^^ y) = crc16_step x ^^^ crc16_step y := by
  rw [crc16_step_eq, crc16_step_eq, crc16_step_eq, xor_shiftLeft_distrib,
    crc_poly_if_xor, ← Nat.and_xor_distrib_right, xor_xor_xor_comm]

theorem crc16_step_iterate_xor (n x y : Nat) :
    crc16_step^[n] (x ^^^ y) = crc16_step^[n] x ^^^ crc16_step^[n] y := by
  induction n generalizing x y with
  | zero => simp
  | succ k ih =>
    rw [Function.iterate_succ_apply, Function.iterate_succ_apply,
      Function.iterate_succ_apply, crc16_step_xor, ih]

theorem crc16_step_pos (x : Nat) (hx : x ≠ 0) (hlt : x < 65536) :
    crc16_step x ≠ 0 := by
  rw [crc16_step_eq]
  by_cases h15 : x.testBit 15 = true
  · rw [if_pos h15]
    intro h0
    have hbit : (((x <<< 1) ^^^ 0x1021) &&& 0xFFFF).testBit 0 = true := by
      rw [Nat.testBit_and, Nat.testBit_xor, Nat.testBit_shiftLeft]
      norm_num
    rw [h0] at hbit
    simp at hbit
  · rw [if_neg h15, Nat.xor_zero]
    obtain ⟨i, hi⟩ := Nat.ne_zero_implies_bit_true hx
    have hilt : i < 16 := by
      by_contra hge
      push_neg at hge
      have hxi : x < 2 ^ i := by
        calc x < 65536 := hlt
        _ = 2 ^ 16 := by norm_num
        _ ≤ 2 ^ i := Nat.pow_le_pow_right (by norm_num) hge
      rw [Nat.testBit_lt_two_pow hxi] at hi
      exact Bool.false_ne_true hi
    have hine : i ≠ 15 := by
      intro he
      exact h15 (he ▸ hi)
    intro h0
    have hbit : ((x <<< 1) &&& 0xFFFF).testBit (i + 1) = true := by
      rw [Nat.testBit_and, Nat.testBit_shiftLeft,
        show (0xFFFF : Nat) = 2 ^ 16 - 1 by norm_num,
        Nat.testBit_two_pow_sub_one]
      simp only [Nat.add_sub_cancel, hi]
      have : i + 1 < 16 := by omega
      simp [this]
    rw [h0] at hbit
    simp at hbit

theorem crc16_step_iterate_lt (n x : Nat) (h : x < 65536) :
    crc16_step^[n] x < 65536 := by
  induction n generalizing x with
  | zero => simpa
  | succ k ih =>
    rw [Function.iterate_succ_apply]
    exact ih _ (crc16_step_lt x)

theorem crc16_step_iterate_pos (n x : Nat) (hx : x ≠ 0) (h : x < 65536) :
    crc16_step^[n] x ≠ 0 := by
  induction n generalizing x with
  | zero => simpa
  | succ k ih =>
    rw [Function.iterate_succ_apply]
    exact ih _ (crc16_step_pos x hx h) (crc16_step_lt x)

theorem crc16_update_xor_left (c d b : Nat) :
    crc16_update (c ^^^ d) b = crc16_update c b ^^^ crc16_step^[8] d := by
  unfold crc16_update
  rw [show (c ^^^ d) ^^^ (b <<< 8) = (c ^^^ (b <<< 8)) ^^^ d by
      rw [Nat.xor_assoc, Nat.xor_comm d, ← Nat.xor_assoc],
    crc16_step_iterate_xor]

theorem crc16_update_xor_byte (c b e : Nat) :
    crc16_update c (b ^^^ e) = crc16_update c b ^^^ crc16_step^[8] (e <<< 8) := by
  unfold crc16_update
  rw [xor_shiftLeft_distrib,
    show c ^^^ ((b <<< 8) ^^^ (e <<< 8)) = (c ^^^ (b <<< 8)) ^^^ (e <<< 8)
      from (Nat.xor_assoc _ _ _).symm,
    crc16_step_iterate_xor]

theorem foldl_crc16_update_xor (post : List Nat) (c d : Nat) :
    post.foldl crc16_update (c ^^^ d) =
      post.foldl crc16_update c ^^^ crc16_step^[8 * post.length] d := by
  induction post generalizing c d with
  | nil => simp
  | cons b rest ih =>
    simp only [List.foldl_cons, List.length_cons]
    rw [crc16_update_xor_left, ih, ← Function.iterate_add_apply,
      show 8 * rest.length + 8 = 8 * (rest.length + 1) by ring]

theorem xor_right_eq_self {a d : Nat} (h : a ^^^ d = a) : d = 0 := by
  have h2 : a ^^^ (a ^^^ d) = a ^^^ a := congrArg (a ^^^ ·) h
  rwa [← Nat.xor_assoc, Nat.xor_self, Nat.zero_xor] at h2

theorem crc16_update_lt (c b : Nat) : crc16_update c b < 65536 := by
  unfold crc16_update
  rw [show (8 : Nat) = 7 + 1 from rfl, Function.iterate_succ_apply']
  exact crc16_step_lt _

theorem foldl_crc16_update_lt (l : List Nat) (c : Nat) (h : c < 65536) :
    l.foldl crc16_update c < 65536 := by
  induction l generalizing c with
  | nil => simpa
  | cons b rest ih =>
    simp only [List.foldl_cons]
    exact ih _ (crc16_update_lt c b)

theorem calculate_crc16_lt (l : List Nat) : calculate_crc16 l < 65536 :=
  foldl_crc16_update_lt l 0xFFFF (by norm_num)

/-- Flipping bit i of one byte always changes the CRC-16 value: the CRC
is affine over xor and the injected single-bit difference can never be
driven to zero by the shift-and-fold rounds. -/
theorem calculate_crc16_flip_ne (pre post : List Nat) (b i : Nat)
    (hi : i < 8) :
    calculate_crc16 (pre ++ (b ^^^ (1 <<< i)) :: post) ≠
      calculate_crc16 (pre ++ b :: post) := by
  unfold calculate_crc16
  rw [List.foldl_append, List.foldl_append]
  simp only [List.foldl_cons]
  rw [crc16_update_xor_byte, foldl_crc16_update_xor]
  have he : (1 <<< i) <<< 8 = 2 ^ (i + 8) := by
    rw [Nat.shiftLeft_eq, Nat.shiftLeft_eq, one_mul, ← pow_add]
  have hlt : (2 : Nat) ^ (i + 8) < 65536 := by
    calc (2 : Nat) ^ (i + 8) < 2 ^ 16 :=
      Nat.pow_lt_pow_right (by norm_num) (by omega)
    _ = 65536 := by norm_num
  have hne0 : (2 : Nat) ^ (i + 8) ≠ 0 := by positivity
  have hD : crc16_step^[8 * post.length]
      (crc16_step^[8] ((1 <<< i) <<< 8)) ≠ 0 := by
    rw [he]
    exact crc16_step_iterate_pos _ _
      (crc16_step_iterate_pos 8 _ hne0 hlt)
      (crc16_step_iterate_lt 8 _ hlt)
  intro heq
  exact hD (xor_right_eq_self heq)

/-- Evaluation of parse_message on a well-formed frame: the header
checks pass and the result is decided by the checksum comparison, the
optional decompression, and the json fallback. -/
theorem parse_message_framed {α : Type} (loads : List Nat → Option α)
    (decompress : List Nat → Option (List Nat))
    (mt comp declLen ck : Nat) (q : List Nat)
    (hlen : declLen < 65536) (hck : ck < 65536) (hq : q.length = declLen) :
    parse_message loads decompress
      (pack16 MAGIC_NUMBER ++ [mt, comp] ++ pack16 declLen ++ pack16 ck ++ q) =
      if calculate_crc16 q ≠ ck then .error .checksumMismatch
      else
        match (if comp = CompressionZLIB then decompress q else some q) with
        | none => .error .decompressFailed
        | some pb =>
          .ok { msg_type := mt, compression := comp,
                payload :=
                  match loads pb with
                  | some d => Payload.dict d
                  | none => Payload.bytes pb,
                checksum := ck } := by
  have hframe : pack16 MAGIC_NUMBER ++ [mt, comp] ++ pack16 declLen ++
      pack16 ck ++ q =
      218 :: 204 :: mt :: comp :: (declLen / 256 % 256) :: (declLen % 256) ::
        (ck / 256 % 256) :: (ck % 256) :: q := by
    simp [pack16, MAGIC_NUMBER]
  rw [hframe]
  unfold parse_message
  rw [if_neg (show ¬((218 :: 204 :: mt :: comp :: (declLen / 256 % 256) ::
      (declLen % 256) :: (ck / 256 % 256) :: (ck % 256) :: q).length <
      HEADER_SIZE) by simp [HEADER_SIZE])]
  simp only [List.getD_cons_zero, List.getD_cons_succ, unpack16,
    HEADER_SIZE, List.length_cons, List.drop_succ_cons, List.drop_zero]
  have hdecl : 256 * (declLen / 256 % 256) + declLen % 256 = declLen := by
    omega
  have hcke : 256 * (ck / 256 % 256) + ck % 256 = ck := by omega
  rw [hdecl, hcke]
  rw [if_neg (show ¬(256 * 218 + 204 ≠ MAGIC_NUMBER) by norm_num [MAGIC_NUMBER])]
  rw [if_neg (show ¬(q.length + 1 + 1 + 1 + 1 + 1 + 1 + 1 + 1 < 8 + declLen)
    by omega)]
  rw [← hq, List.take_length]

theorem create_message_ok_elim {α : Type} (dumps : α → List Nat)
    (compress : List Nat → List Nat) (mt : Nat) (payload : Payload α)
    (comp : Nat) (frame : List Nat)
    (hok : create_message dumps compress mt payload comp = .ok frame) :
    (wire_payload dumps compress payload comp).length ≤ MAX_PAYLOAD_SIZE ∧
    mt < 256 ∧ comp < 256 ∧
    frame = pack16 MAGIC_NUMBER ++ [mt, comp] ++
      pack16 (wire_payload dumps compress payload comp).length ++
      pack16 (calculate_crc16 (wire_payload dumps compress payload comp)) ++
      wire_payload dumps compress payload comp := by
  simp only [create_message] at hok
  by_cases h1 :
      MAX_PAYLOAD_SIZE < (wire_payload dumps compress payload comp).length
  · rw [if_pos h1] at hok; cases hok
  · rw [if_neg h1] at hok
    by_cases h2 : 256 ≤ mt ∨ 256 ≤ comp
    · rw [if_pos h2] at hok; cases hok
    · rw [if_neg h2] at hok
      push_neg at h2
      exact ⟨by omega, by omega, by omega, (Except.ok.inj hok).symm⟩

/-- Claim C1: for every valid (type, payload, compression) triple that Encode
accepts, Decode of the Encode output returns the original message type
and an equivalent payload, given the documented contracts of the json
and zlib libraries. -/
theorem roundtrip_create_parse {α : Type} (dumps : α → List Nat)
    (compress : List Nat → List Nat) (loads : List Nat → Option α)
    (decompress : List Nat → Option (List Nat))
    (message_type compression : Nat) (payload : Payload α)
    (frame : List Nat)
    (hok : create_message dumps compress message_type payload compression =
      .ok frame)
    (hloads : ∀ d : α, loads (dumps d) = some d)
    (hzlib : ∀ b : List Nat, decompress (compress b) = some b) :
    ∃ ck, parse_message loads decompress frame =
      .ok { msg_type := message_type, compression := compression,
            payload := decoded_payload loads payload, checksum := ck } := by
  obtain ⟨hsz, hmt, hcp, hfr⟩ := create_message_ok_elim _ _ _ _ _ _ hok
  refine ⟨calculate_crc16 (wire_payload dumps compress payload compression), ?_⟩
  rw [hfr, parse_message_framed _ _ _ _ _ _ _
    (by simp only [MAX_PAYLOAD_SIZE] at hsz; omega)
    (calculate_crc16_lt _) rfl]
  rw [if_neg (by simp)]
  by_cases hc : compression = CompressionZLIB
  · rw [if_pos hc]
    have hwp : wire_payload dumps compress payload compression =
        compress (serialized_payload dumps payload) := by
      unfold wire_payload
      rw [if_pos hc]
    rw [hwp, hzlib]
    cases payload with
    | dict d => simp [serialized_payload, decoded_payload, hloads d]
    | bytes b => simp [serialized_payload, decoded_payload]
  · rw [if_neg hc]
    have hwp : wire_payload dumps compress payload compression =
        serialized_payload dumps payload := by
      unfold wire_payload
      rw [if_neg hc]
    rw [hwp]
    cases payload with
    | dict d => simp [serialized_payload, decoded_payload, hloads d]
    | bytes b => simp [serialized_payload, decoded_payload]

/-- Witness for C1 at Scenario A: Encode(PING, {}) then Decode yields
type PING and the empty dict payload. -/
theorem roundtrip_create_parse_witness :
    create_message dumps0 id PING (Payload.dict ()) 0 = .ok ping_frame ∧
    ∃ ck, parse_message loads0 some ping_frame =
      .ok { msg_type := PING, compression := 0,
            payload := Payload.dict (), checksum := ck } := by
  refine ⟨by rfl, ?_⟩
  have h := roundtrip_create_parse dumps0 id loads0 some PING 0
    (Payload.dict ()) ping_frame (by rfl) (fun d => by rfl) (fun b => rfl)
  simpa [decoded_payload] using h

/-- Claim C2: flipping any single bit of a payload byte of a frame produced by
Encode makes Decode report the checksum mismatch error. -/
theorem single_bit_flip_checksum_mismatch {α : Type} (dumps : α → List Nat)
    (compress : List Nat → List Nat) (loads : List Nat → Option α)
    (decompress : List Nat → Option (List Nat))
    (message_type compression : Nat) (payload : Payload α)
    (frame : List Nat)
    (hok : create_message dumps compress message_type payload compression =
      .ok frame)
    (p i : Nat) (hp : p < (frame.drop HEADER_SIZE).length) (hi : i < 8) :
    parse_message loads decompress
      (frame.take HEADER_SIZE ++
        ((frame.drop HEADER_SIZE).take p ++
          (((frame.drop HEADER_SIZE).getD p 0) ^^^ (1 <<< i)) ::
          (frame.drop HEADER_SIZE).drop (p + 1))) =
      .error .checksumMismatch := by
  obtain ⟨hsz, hmt, hcp, hfr⟩ := create_message_ok_elim _ _ _ _ _ _ hok
  have hfr' : frame =
      218 :: 204 :: message_type :: compression ::
      ((wire_payload dumps compress payload compression).length / 256 % 256) ::
      ((wire_payload dumps compress payload compression).length % 256) ::
      (calculate_crc16 (wire_payload dumps compress payload compression) / 256 % 256) ::
      (calculate_crc16 (wire_payload dumps compress payload compression) % 256) ::
      wire_payload dumps compress payload compression := by
    rw [hfr]
    simp [pack16, MAGIC_NUMBER]
  have hdrop : frame.drop HEADER_SIZE =
      wire_payload dumps compress payload compression := by
    rw [hfr']
    rfl
  have htake : frame.take HEADER_SIZE =
      pack16 MAGIC_NUMBER ++ [message_type, compression] ++
      pack16 (wire_payload dumps compress payload compression).length ++
      pack16 (calculate_crc16 (wire_payload dumps compress payload compression)) := by
    rw [hfr']
    rfl
  rw [hdrop] at hp ⊢
  rw [htake]
  have hplt : p < (wire_payload dumps compress payload compression).length := hp
  have hqlen :
      ((wire_payload dumps compress payload compression).take p ++
        (((wire_payload dumps compress payload compression).getD p 0) ^^^ (1 <<< i)) ::
        (wire_payload dumps compress payload compression).drop (p + 1)).length =
      (wire_payload dumps compress payload compression).length := by
    simp only [List.length_append, List.length_cons, List.length_take,
      List.length_drop]
    omega
  rw [show pack16 MAGIC_NUMBER ++ [message_type, compression] ++
      pack16 (wire_payload dumps compress payload compression).length ++
      pack16 (calculate_crc16 (wire_payload dumps compress payload compression)) ++
      ((wire_payload dumps compress payload compression).take p ++
        (((wire_payload dumps compress payload compression).getD p 0) ^^^ (1 <<< i)) ::
        (wire_payload dumps compress payload compression).drop (p + 1)) =
      pack16 MAGIC_NUMBER ++ [message_type, compression] ++
      pack16 (wire_payload dumps compress payload compression).length ++
      pack16 (calculate_crc16 (wire_payload dumps compress payload compression)) ++
      ((wire_payload dumps compress payload compression).take p ++
        (((wire_payload dumps compress payload compression).getD p 0) ^^^ (1 <<< i)) ::
        (wire_payload dumps compress payload compression).drop (p + 1)) from rfl,
    parse_message_framed _ _ _ _ _ _ _
      (by simp only [MAX_PAYLOAD_SIZE] at hsz; omega)
      (calculate_crc16_lt _) hqlen]
  have hdecomp :
      (wire_payload dumps compress payload compression).take p ++
        ((wire_payload dumps compress payload compression).getD p 0) ::
        (wire_payload dumps compress payload compression).drop (p + 1) =
      wire_payload dumps compress payload compression := by
    have hget : (wire_payload dumps compress payload compression).getD p 0 =
        (wire_payload dumps compress payload compression)[p] := by
      simp [List.getD_eq_getElem?_getD, List.getElem?_eq_getElem hplt]
    rw [hget, ← List.drop_eq_getElem_cons hplt]
    exact List.take_append_drop p _
  rw [if_pos (by
    conv_rhs => rw [← hdecomp]
    exact calculate_crc16_flip_ne _ _ _ i hi)]

/-- Witness for C2: flipping bit 0 of the first payload byte of the
Encode(PING, {}) frame is reported as a checksum mismatch. -/
theorem single_bit_flip_witness :
    parse_message loads0 some
      (ping_frame.take HEADER_SIZE ++
        ((ping_frame.drop HEADER_SIZE).take 0 ++
          (((ping_frame.drop HEADER_SIZE).getD 0 0) ^^^ (1 <<< 0)) ::
          (ping_frame.drop HEADER_SIZE).drop 1)) =
      .error .checksumMismatch :=
  single_bit_flip_checksum_mismatch dumps0 id loads0 some PING 0
    (Payload.dict ()) ping_frame (by rfl) 0 0 (by decide) (by decide)

/-- Claim C6: Encode fails exactly on an oversized (post-compression) payload,
and Decode fails on a short or truncated input, a bad magic constant, a
checksum mismatch, or a failing decompression, always as an error value
returned to the caller. -/
theorem protocol_error_taxonomy {α : Type} (dumps : α → List Nat)
    (compress : List Nat → List Nat) (loads : List Nat → Option α)
    (decompress : List Nat → Option (List Nat))
    (message_type compression : Nat) (payload : Payload α)
    (data : List Nat) :
    (message_type < 256 → compression < 256 →
      ((∃ e, create_message dumps compress message_type payload compression =
        .error e) ↔
        MAX_PAYLOAD_SIZE <
          (wire_payload dumps compress payload compression).length)) ∧
    (MAX_PAYLOAD_SIZE <
        (wire_payload dumps compress payload compression).length →
      create_message dumps compress message_type payload compression =
        .error .payloadTooLarge) ∧
    (data.length < HEADER_SIZE →
      parse_message loads decompress data = .error .headerTooShort) ∧
    (HEADER_SIZE ≤ data.length →
      unpack16 (data.getD 0 0) (data.getD 1 0) ≠ MAGIC_NUMBER →
      parse_message loads decompress data = .error .badMagic) ∧
    (HEADER_SIZE ≤ data.length →
      unpack16 (data.getD 0 0) (data.getD 1 0) = MAGIC_NUMBER →
      data.length < HEADER_SIZE + unpack16 (data.getD 4 0) (data.getD 5 0) →
      parse_message loads decompress data = .error .truncated) ∧
    (HEADER_SIZE ≤ data.length →
      unpack16 (data.getD 0 0) (data.getD 1 0) = MAGIC_NUMBER →
      HEADER_SIZE + unpack16 (data.getD 4 0) (data.getD 5 0) ≤ data.length →
      calculate_crc16
          ((data.drop HEADER_SIZE).take (unpack16 (data.getD 4 0) (data.getD 5 0))) ≠
        unpack16 (data.getD 6 0) (data.getD 7 0) →
      parse_message loads decompress data = .error .checksumMismatch) ∧
    (HEADER_SIZE ≤ data.length →
      unpack16 (data.getD 0 0) (data.getD 1 0) = MAGIC_NUMBER →
      HEADER_SIZE + unpack16 (data.getD 4 0) (data.getD 5 0) ≤ data.length →
      calculate_crc16
          ((data.drop HEADER_SIZE).take (unpack16 (data.getD 4 0) (data.getD 5 0))) =
        unpack16 (data.getD 6 0) (data.getD 7 0) →
      data.getD 3 0 = CompressionZLIB →
      decompress
          ((data.drop HEADER_SIZE).take (unpack16 (data.getD 4 0) (data.getD 5 0))) =
        none →
      parse_message loads decompress data = .error .decompressFailed) := by
  refine ⟨?_, ?_, ?_, ?_, ?_, ?_, ?_⟩
  · intro hmt hcp
    constructor
    · rintro ⟨e, he⟩
      simp only [create_message] at he
      by_cases h1 : MAX_PAYLOAD_SIZE <
          (wire_payload dumps compress payload compression).length
      · exact h1
      · rw [if_neg h1, if_neg (by omega)] at he
        cases he
    · intro h1
      simp only [create_message]
      rw [if_pos h1]
      exact ⟨_, rfl⟩
  · intro h1
    simp only [create_message]
    rw [if_pos h1]
  · intro h
    simp only [parse_message]
    rw [if_pos h]
  · intro h hm
    simp only [parse_message]
    rw [if_neg (by omega), if_pos hm]
  · intro h hm htr
    simp only [parse_message]
    rw [if_neg (by omega), if_neg (fun hc => hc hm), if_pos htr]
  · intro h hm htr hcrc
    simp only [parse_message]
    rw [if_neg (by omega), if_neg (fun hc => hc hm), if_neg (by omega),
      if_pos hcrc]
  · intro h hm htr hcrc hz hdec
    simp only [parse_message]
    rw [if_neg (by omega), if_neg (fun hc => hc hm), if_neg (by omega),
      if_neg (fun hc => hc hcrc), hz, if_pos rfl, hdec]

/-- Witness for C6: a concrete input for every failure case of the
taxonomy. -/
theorem protocol_error_taxonomy_witness :
    create_message dumps0 id PING
      (Payload.bytes (List.replicate 8193 0)) 0 = .error .payloadTooLarge ∧
    parse_message loads0 some [1, 2, 3] = .error .headerTooShort ∧
    parse_message loads0 some [0, 0, 1, 0, 0, 0, 0, 0] = .error .badMagic ∧
    parse_message loads0 some [218, 204, 1, 0, 0, 5, 0, 0] =
      .error .truncated ∧
    parse_message loads0 some [218, 204, 1, 0, 0, 1, 0, 0, 7] =
      .error .checksumMismatch ∧
    parse_message loads0 (fun _ => none)
      [218, 204, 1, 1, 0, 1, calculate_crc16 [7] / 256 % 256,
        calculate_crc16 [7] % 256, 7] = .error .decompressFailed := by
  refine ⟨?_, ?_, ?_, ?_, ?_, ?_⟩
  · exact (protocol_error_taxonomy dumps0 id loads0 some PING 0
      (Payload.bytes (List.replicate 8193 0)) []).2.1
      (by
        rw [show wire_payload dumps0 id
            (Payload.bytes (List.replicate 8193 0)) 0 =
            List.replicate 8193 0 from rfl, List.length_replicate]
        norm_num [MAX_PAYLOAD_SIZE])
  · exact (protocol_error_taxonomy dumps0 id loads0 some PING 0
      (Payload.dict ()) [1, 2, 3]).2.2.1 (by decide)
  · exact (protocol_error_taxonomy dumps0 id loads0 some PING 0
      (Payload.dict ()) [0, 0, 1, 0, 0, 0, 0, 0]).2.2.2.1
      (by decide) (by decide)
  · exact (protocol_error_taxonomy dumps0 id loads0 some PING 0
      (Payload.dict ()) [218, 204, 1, 0, 0, 5, 0, 0]).2.2.2.2.1
      (by decide) (by decide) (by decide)
  · exact (protocol_error_taxonomy dumps0 id loads0 some PING 0
      (Payload.dict ()) [218, 204, 1, 0, 0, 1, 0, 0, 7]).2.2.2.2.2.1
      (by decide) (by decide) (by decide) (by decide)
  · exact (protocol_error_taxonomy dumps0 id loads0 (fun _ => none) PING 0
      (Payload.dict ())
      [218, 204, 1, 1, 0, 1, calculate_crc16 [7] / 256 % 256,
        calculate_crc16 [7] % 256, 7]).2.2.2.2.2.2
      (by decide) (by decide) (by decide) (by decide) (by decide) rfl

end MessageProtocol

theorem mem_insertByTimestamp {x y : StrainReading} {l : List StrainReading} :
    y ∈ insertByTimestamp x l ↔ y = x ∨ y ∈ l := by
  induction l with
  | nil => simp [insertByTimestamp]
  | cons z zs ih =>
    unfold insertByTimestamp
    by_cases h : x.timestamp ≤ z.timestamp
    · rw [if_pos h]
      simp [List.mem_cons]
    · rw [if_neg h]
      simp only [List.mem_cons, ih]
      tauto

theorem mem_sortByTimestamp {y : StrainReading} {l : List StrainReading} :
    y ∈ sortByTimestamp l ↔ y ∈ l := by
  induction l with
  | nil => simp [sortByTimestamp]
  | cons x xs ih =>
    unfold sortByTimestamp
    rw [mem_insertByTimestamp]
    simp [ih]

theorem filter_insertByTimestamp_of_neg (p : StrainReading → Bool)
    (x : StrainReading) (l : List StrainReading) (hx : p x = false) :
    (insertByTimestamp x l).filter p = l.filter p := by
  induction l with
  | nil => simp [insertByTimestamp, hx]
  | cons y ys ih =>
    unfold insertByTimestamp
    by_cases h : x.timestamp ≤ y.timestamp
    · rw [if_pos h]
      simp [List.filter_cons, hx]
    · rw [if_neg h]
      simp only [List.filter_cons, ih]

theorem filter_insertByTimestamp_of_pos (p : StrainReading → Bool)
    (x : StrainReading) (l : List StrainReading) (hx : p x = true)
    (ht : ∀ z ∈ l, p z = true → z.timestamp = x.timestamp) :
    (insertByTimestamp x l).filter p = x :: l.filter p := by
  induction l with
  | nil => simp [insertByTimestamp, hx]
  | cons y ys ih =>
    unfold insertByTimestamp
    by_cases h : x.timestamp ≤ y.timestamp
    · rw [if_pos h]
      simp [List.filter_cons, hx]
    · rw [if_neg h]
      have hy : p y = false := by
        cases hpy : p y
        · rfl
        · exfalso
          apply h
          rw [ht y (by simp) hpy]
      rw [List.filter_cons, List.filter_cons]
      simp only [hy, Bool.false_eq_true, if_neg]
      exact ih (fun z hz hp => ht z (List.mem_cons_of_mem _ hz) hp)

theorem filter_sortByTimestamp_same_ts (p : StrainReading → Bool)
    (t : Nat) (l : List StrainReading)
    (ht : ∀ z ∈ l, p z = true → z.timestamp = t) :
    (sortByTimestamp l).filter p = l.filter p := by
  induction l with
  | nil => rfl
  | cons x xs ih =>
    unfold sortByTimestamp
    by_cases hx : p x = true
    · have hxts : x.timestamp = t := ht x (by simp) hx
      rw [filter_insertByTimestamp_of_pos p x _ hx
        (fun z hz hp => by
          rw [ht z (List.mem_cons_of_mem _ (mem_sortByTimestamp.mp hz)) hp,
            hxts]),
        ih (fun z hz hp => ht z (List.mem_cons_of_mem _ hz) hp),
        List.filter_cons]
      simp [hx]
    · have hx' : p x = false := by
        cases hpx : p x
        · rfl
        · exact absurd hpx hx
      rw [filter_insertByTimestamp_of_neg p x _ hx',
        ih (fun z hz hp => ht z (List.mem_cons_of_mem _ hz) hp),
        List.filter_cons]
      simp [hx']

theorem mem_dedupByKey_not_seen {r : StrainReading} {l : List StrainReading}
    {seen : List (Nat × String)} (h : r ∈ dedupByKey l seen) :
    dedupKey r ∉ seen := by
  induction l generalizing seen with
  | nil => cases h
  | cons x xs ih =>
    unfold dedupByKey at h
    by_cases hk : dedupKey x ∈ seen
    · rw [if_pos hk] at h
      exact ih h
    · rw [if_neg hk] at h
      rcases List.mem_cons.mp h with rfl | h2
      · exact hk
      · intro hc
        exact ih h2 (List.mem_cons_of_mem _ hc)

theorem dedupByKey_pairwise (l : List StrainReading)
    (seen : List (Nat × String)) :
    (dedupByKey l seen).Pairwise (fun a b => dedupKey a ≠ dedupKey b) := by
  induction l generalizing seen with
  | nil => exact List.Pairwise.nil
  | cons x xs ih =>
    unfold dedupByKey
    by_cases hk : dedupKey x ∈ seen
    · rw [if_pos hk]
      exact ih _
    · rw [if_neg hk]
      refine List.Pairwise.cons ?_ (ih _)
      intro b hb hc
      exact mem_dedupByKey_not_seen hb (by rw [← hc]; exact List.mem_cons_self _ _)

theorem filter_dedupByKey_seen (l : List StrainReading)
    (seen : List (Nat × String)) (k : Nat × String) (hk : k ∈ seen) :
    (dedupByKey l seen).filter (fun r => decide (dedupKey r = k)) = [] := by
  induction l generalizing seen with
  | nil => rfl
  | cons x xs ih =>
    unfold dedupByKey
    by_cases hx : dedupKey x ∈ seen
    · rw [if_pos hx]
      exact ih _ hk
    · rw [if_neg hx]
      have hne : dedupKey x ≠ k := fun he => hx (he ▸ hk)
      rw [List.filter_cons]
      simp only [hne, decide_eq_false, Bool.false_eq_true, if_neg]
      exact ih _ (List.mem_cons_of_mem _ hk)

theorem filter_dedupByKey_not_seen (l : List StrainReading)
    (seen : List (Nat × String)) (k : Nat × String) (hk : k ∉ seen) :
    (dedupByKey l seen).filter (fun r => decide (dedupKey r = k)) =
      (l.filter (fun r => decide (dedupKey r = k))).take 1 := by
  induction l generalizing seen with
  | nil => rfl
  | cons x xs ih =>
    unfold dedupByKey
    by_cases hx : dedupKey x ∈ seen
    · rw [if_pos hx]
      have hne : dedupKey x ≠ k := fun he => hk (he ▸ hx)
      rw [List.filter_cons]
      simp only [hne, decide_eq_false, Bool.false_eq_true, if_neg]
      exact ih _ hk
    · rw [if_neg hx, List.filter_cons, List.filter_cons]
      by_cases hxk : dedupKey x = k
      · rw [if_pos (by simp [hxk]), if_pos (by simp [hxk]),
          filter_dedupByKey_seen xs _ k
            (by rw [← hxk]; exact List.mem_cons_self _ _)]
        rfl
      · rw [if_neg (by simp [hxk]), if_neg (by simp [hxk])]
        exact ih _ (by
          intro hc
          rcases List.mem_cons.mp hc with he | hs
          · exact hxk he.symm
          · exact hk hs)

theorem dedupByKey_head_filter {l : List StrainReading} {r : StrainReading}
    (h : r ∈ dedupByKey l []) :
    (l.filter (fun x => decide (dedupKey x = dedupKey r))).head? = some r := by
  have hf := filter_dedupByKey_not_seen l [] (dedupKey r) (by simp)
  have hr : r ∈ (dedupByKey l []).filter
      (fun x => decide (dedupKey x = dedupKey r)) :=
    List.mem_filter.mpr ⟨h, by simp⟩
  rw [hf] at hr
  cases hfl : l.filter (fun x => decide (dedupKey x = dedupKey r)) with
  | nil =>
    rw [hfl] at hr
    cases hr
  | cons a as =>
    rw [hfl] at hr
    simp only [List.take] at hr
    have hra : r = a := by simpa using hr
    simp [hra]

/-- Claim C4: RecentReadings never returns two entries with the same
(timestamp, sensor id) key, and whenever the key of a returned entry
also occurs among the buffered readings of the window, the returned
entry is one of those buffered readings: the buffer wins over the
store. -/
theorem recent_readings_dedup (m : DataManager) (now : Nat)
    (sensor_id : Option String) (minutes : Nat) (max_count : Option Nat) :
    (m.get_recent_readings now sensor_id minutes max_count).Pairwise
      (fun a b => dedupKey a ≠ dedupKey b) ∧
    (∀ r ∈ m.get_recent_readings now sensor_id minutes max_count,
      ∀ b ∈ m.buffer.get_readings sensor_id (some (now - minutes * 60))
        none none,
        dedupKey b = dedupKey r →
        r ∈ m.buffer.get_readings sensor_id (some (now - minutes * 60))
          none none) := by
  have hsl : List.Sublist
      (m.get_recent_readings now sensor_id minutes max_count)
      (dedupByKey (sortByTimestamp
        (m.buffer.get_readings sensor_id (some (now - minutes * 60)) none none ++
         m.database.get_readings sensor_id (some (now - minutes * 60)) none
           max_count)) []) := by
    unfold DataManager.get_recent_readings
    cases max_count with
    | none => exact List.Sublist.refl _
    | some n =>
      dsimp only
      split
      · unfold sliceLast
        split
        · exact List.Sublist.refl _
        · exact List.drop_sublist _ _
      · exact List.Sublist.refl _
  constructor
  · exact (dedupByKey_pairwise _ _).sublist hsl
  · intro r hr b hb hkey
    have hru : r ∈ dedupByKey (sortByTimestamp
        (m.buffer.get_readings sensor_id (some (now - minutes * 60)) none none ++
         m.database.get_readings sensor_id (some (now - minutes * 60)) none
           max_count)) [] := hsl.subset hr
    have hhead := dedupByKey_head_filter hru
    have hstab := filter_sortByTimestamp_same_ts
      (fun x => decide (dedupKey x = dedupKey r)) r.timestamp
      (m.buffer.get_readings sensor_id (some (now - minutes * 60)) none none ++
       m.database.get_readings sensor_id (some (now - minutes * 60)) none
         max_count)
      (fun z _ hp => congrArg Prod.fst (of_decide_eq_true hp))
    rw [hstab, List.filter_append] at hhead
    have hbf : b ∈ (m.buffer.get_readings sensor_id
        (some (now - minutes * 60)) none none).filter
        (fun x => decide (dedupKey x = dedupKey r)) :=
      List.mem_filter.mpr ⟨hb, by simp [hkey]⟩
    cases hfb : (m.buffer.get_readings sensor_id
        (some (now - minutes * 60)) none none).filter
        (fun x => decide (dedupKey x = dedupKey r)) with
    | nil =>
      rw [hfb] at hbf
      cases hbf
    | cons a as =>
      rw [hfb] at hhead
      simp only [List.cons_append, List.head?_cons] at hhead
      have har : a = r := by simpa using hhead
      have ha : a ∈ m.buffer.get_readings sensor_id
          (some (now - minutes * 60)) none none :=
        (List.mem_filter.mp (hfb ▸ List.mem_cons_self a as)).1
      rwa [← har]

/-- Witness for C4: with a buffered reading and a stored row sharing
the key (100, S1), the returned entry is the buffered one. -/
theorem recent_readings_dedup_witness :
    rBuf ∈ m4.get_recent_readings 100 none 0 none ∧
    rBuf ∈ m4.buffer.get_readings none (some (100 - 0 * 60)) none none :=
  ⟨by decide,
   (recent_readings_dedup m4 100 none 0 none).2 rBuf (by decide) rBuf
     (by decide) rfl⟩

/-- Claim C3 counterexample: after ingesting R1..R4 through
DataManager.add_reading with an Ingest Buffer of capacity 3, the buffer
does not contain {R2, R3, R4}: the third ingest reached the capacity
threshold and flushed R1..R3 to the durable store, so only R4 remains
buffered. -/
theorem ingest_scenarioB_counterexample :
    scenarioB.buffer.buffer = [rS4] ∧
    rS2 ∉ scenarioB.buffer.buffer ∧
    rS3 ∉ scenarioB.buffer.buffer ∧
    scenarioB.database.rows = [rS1, rS2, rS3] := by
  refine ⟨by decide, by decide, by decide, by decide⟩

/-- Claim C3 amended: the {R2, R3, R4} FIFO outcome holds for the eviction
rule of DataBuffer.add_reading alone, for arbitrary readings at capacity
3; ingesting R1..R4 through DataManager.add_reading instead triggers the
size-based flush at the third reading, leaving the buffer holding
exactly [R4] with R1, R2, R3 moved to the durable store. -/
theorem ingest_capacity_three_flush (a b c d : StrainReading) (fi lf : Nat) :
    scenarioB.buffer.buffer = [rS4] ∧
    scenarioB.database.rows = [rS1, rS2, rS3] ∧
    (((((⟨[], 3, fi, lf⟩ : DataBuffer).add_reading a).add_reading
      b).add_reading c).add_reading d).buffer = [b, c, d] := by
  refine ⟨by decide, by decide, ?_⟩
  simp [DataBuffer.add_reading]

/-- Claim C5 counterexample: with a scan task still alive and one connected
peer, removing the last peer sets the state to disconnected, not to
scanning as the claim requires. -/
theorem disconnect_scan_counterexample :
    s5.scan_task_alive = true ∧
    (s5.disconnect "AA").state = BLEConnectionState.disconnected ∧
    (s5.disconnect "AA").state ≠ BLEConnectionState.scanning := by
  refine ⟨rfl, by decide, by decide⟩

/-- Claim C5 amended: Disconnect on an address that is not connected is a
complete no-op, and removing the last connected peer always sets the
link state to disconnected, whether or not a scan is active; the state
is left unchanged while other peers remain. -/
theorem disconnect_idempotent_unconditional (s : BLESimulator)
    (address : String) :
    (address ∉ s.connected_devices → s.disconnect address = s) ∧
    (address ∈ s.connected_devices →
      (s.disconnect address).connected_devices =
        s.connected_devices.erase address ∧
      (s.disconnect address).connection_tasks =
        s.connection_tasks.erase address ∧
      (s.connected_devices.erase address = [] →
        (s.disconnect address).state = BLEConnectionState.disconnected) ∧
      (s.connected_devices.erase address ≠ [] →
        (s.disconnect address).state = s.state)) := by
  unfold BLESimulator.disconnect
  constructor
  · intro h
    rw [if_pos h]
  · intro h
    rw [if_neg (fun hc => hc h)]
    refine ⟨rfl, rfl, ?_, ?_⟩
    · intro he
      simp [he]
    · intro hne
      dsimp only
      rw [if_neg hne]

/-- Witness for C5: disconnecting an unknown address leaves the state
untouched, and disconnecting the only peer yields the disconnected
state. -/
theorem disconnect_idempotent_witness :
    s5.disconnect "BB" = s5 ∧
    (s5.disconnect "AA").state = BLEConnectionState.disconnected :=
  ⟨(disconnect_idempotent_unconditional s5 "BB").1 (by decide),
   (((disconnect_idempotent_unconditional s5 "AA").2 (by decide)).2.2.1
     (by decide))⟩

theorem streampoint_mem_le_getLast {l : List StreamPoint}
    (h : l.Pairwise (fun p q => p.t ≤ q.t)) :
    ∀ x ∈ l, ∀ y, l.getLast? = some y → x.t ≤ y.t := by
  induction l with
  | nil => intro x hx; cases hx
  | cons a as ih =>
    intro x hx y hy
    cases as with
    | nil =>
      have hxa : x = a := by simpa using hx
      have hya : a = y := by simpa using hy
      rw [hxa, ← hya]
    | cons b bs =>
      have hy' : (b :: bs).getLast? = some y := by
        simpa [List.getLast?_cons_cons] using hy
      rcases List.mem_cons.mp hx with rfl | hx2
      · exact (List.pairwise_cons.mp h).1 y (List.mem_of_getLast?_eq_some hy')
      · exact ih (List.pairwise_cons.mp h).2 x hx2 y hy'

theorem get_streaming_data_eq (m : DataManager) (nowMs : Nat)
    (sid : String) (c : Nat) :
    OscilloscopeAPI.get_streaming_data m nowMs sid (some c) =
      if m.oscilloscope_streamer.data_streams sid = [] then
        empty_streaming_data nowMs
      else
        { sensor_id := sid,
          new_points := ((m.oscilloscope_streamer.data_streams sid).filter
            (fun p => decide (c < p.t))).length,
          data := (m.oscilloscope_streamer.data_streams sid).filter
            (fun p => decide (c < p.t)),
          latest_timestamp :=
            match ((m.oscilloscope_streamer.data_streams sid).filter
              (fun p => decide (c < p.t))).getLast? with
            | some p => some p.t
            | none => some c,
          has_more := decide
            (0 < ((m.oscilloscope_streamer.data_streams sid).filter
              (fun p => decide (c < p.t))).length) } := by
  unfold OscilloscopeAPI.get_streaming_data OscilloscopeStreamer.get_stream_data
  rfl

/-- Claim C7: StreamSince returns exactly the points strictly newer than the
cursor (with new_points their count and has_more true exactly when there
are any); a cursor at or beyond every point of the stream yields the
empty result with has_more = false; and on a time-ordered stream a
subsequent call with the returned latest timestamp always returns
new_points = 0 and has_more = false. -/
theorem streaming_data_since_cursor (m : DataManager) (nowMs nowMs2 : Nat)
    (sid : String) (c : Nat) :
    ((OscilloscopeAPI.get_streaming_data m nowMs sid (some c)).data =
      (m.oscilloscope_streamer.data_streams sid).filter
        (fun p => decide (c < p.t)) ∧
     (OscilloscopeAPI.get_streaming_data m nowMs sid (some c)).new_points =
      ((m.oscilloscope_streamer.data_streams sid).filter
        (fun p => decide (c < p.t))).length ∧
     (OscilloscopeAPI.get_streaming_data m nowMs sid (some c)).has_more =
      decide (0 < ((m.oscilloscope_streamer.data_streams sid).filter
        (fun p => decide (c < p.t))).length)) ∧
    ((∀ p ∈ m.oscilloscope_streamer.data_streams sid, p.t ≤ c) →
      (OscilloscopeAPI.get_streaming_data m nowMs sid (some c)).new_points =
        0 ∧
      (OscilloscopeAPI.get_streaming_data m nowMs sid (some c)).has_more =
        false ∧
      (OscilloscopeAPI.get_streaming_data m nowMs sid (some c)).data = []) ∧
    ((m.oscilloscope_streamer.data_streams sid).Pairwise
        (fun p q => p.t ≤ q.t) →
      ∀ lt, (OscilloscopeAPI.get_streaming_data m nowMs sid
          (some c)).latest_timestamp = some lt →
        (OscilloscopeAPI.get_streaming_data m nowMs2 sid
          (some lt)).new_points = 0 ∧
        (OscilloscopeAPI.get_streaming_data m nowMs2 sid
          (some lt)).has_more = false) := by
  have hgen : ∀ (nw c' : Nat),
      (∀ p ∈ m.oscilloscope_streamer.data_streams sid, p.t ≤ c') →
      (OscilloscopeAPI.get_streaming_data m nw sid (some c')).new_points = 0 ∧
      (OscilloscopeAPI.get_streaming_data m nw sid (some c')).has_more =
        false ∧
      (OscilloscopeAPI.get_streaming_data m nw sid (some c')).data = [] := by
    intro nw c' hall
    have hfe : (m.oscilloscope_streamer.data_streams sid).filter
        (fun p => decide (c' < p.t)) = [] := by
      rw [List.filter_eq_nil_iff]
      intro p hp
      simp only [decide_eq_true_eq]
      exact Nat.not_lt.mpr (hall p hp)
    rw [get_streaming_data_eq]
    by_cases hs : m.oscilloscope_streamer.data_streams sid = []
    · rw [if_pos hs]
      exact ⟨rfl, rfl, rfl⟩
    · rw [if_neg hs]
      refine ⟨by simp [hfe], by simp [hfe], by simp [hfe]⟩
  refine ⟨?_, hgen nowMs c, ?_⟩
  · rw [get_streaming_data_eq]
    by_cases hs : m.oscilloscope_streamer.data_streams sid = []
    · rw [if_pos hs]
      refine ⟨by simp [empty_streaming_data, hs], ?_, ?_⟩
      · simp [empty_streaming_data, hs]
      · simp [empty_streaming_data, hs]
    · rw [if_neg hs]
      exact ⟨rfl, rfl, rfl⟩
  · intro hsorted lt hlt
    rw [get_streaming_data_eq] at hlt
    by_cases hs : m.oscilloscope_streamer.data_streams sid = []
    · rw [if_pos hs] at hlt
      have hbound : ∀ p ∈ m.oscilloscope_streamer.data_streams sid,
          p.t ≤ lt := by
        rw [hs]
        intro p hp
        cases hp
      exact ⟨(hgen nowMs2 lt hbound).1, (hgen nowMs2 lt hbound).2.1⟩
    · rw [if_neg hs] at hlt
      simp only [] at hlt
      cases hgl : ((m.oscilloscope_streamer.data_streams sid).filter
          (fun p => decide (c < p.t))).getLast? with
      | none =>
        rw [hgl] at hlt
        simp only [Option.some.injEq] at hlt
        have hfe := List.getLast?_eq_none_iff.mp hgl
        have hbound : ∀ p ∈ m.oscilloscope_streamer.data_streams sid,
            p.t ≤ lt := by
          intro p hp
          have := List.filter_eq_nil_iff.mp hfe p hp
          simp only [decide_eq_true_eq] at this
          omega
        exact ⟨(hgen nowMs2 lt hbound).1, (hgen nowMs2 lt hbound).2.1⟩
      | some q =>
        rw [hgl] at hlt
        simp only [Option.some.injEq] at hlt
        have hqmem : q ∈ (m.oscilloscope_streamer.data_streams sid).filter
            (fun p => decide (c < p.t)) := List.mem_of_getLast?_eq_some hgl
        have hqc : c < q.t := by
          have := (List.mem_filter.mp hqmem).2
          simpa using this
        have hbound : ∀ p ∈ m.oscilloscope_streamer.data_streams sid,
            p.t ≤ lt := by
          intro p hp
          rw [← hlt]
          by_cases hcp : c < p.t
          · have hpf : p ∈ (m.oscilloscope_streamer.data_streams sid).filter
                (fun x => decide (c < x.t)) :=
              List.mem_filter.mpr ⟨hp, by simpa using hcp⟩
            exact streampoint_mem_le_getLast (hsorted.filter _) p hpf q hgl
          · omega
        exact ⟨(hgen nowMs2 lt hbound).1, (hgen nowMs2 lt hbound).2.1⟩

/-- Witness for C7 at Scenario E: after three appends a cursor of zero
returns three points with has_more, and the returned latest timestamp
returns an empty result. -/
theorem streaming_scenarioE_witness :
    (OscilloscopeAPI.get_streaming_data scenarioE 0 "S1" (some 0)).new_points
      = 3 ∧
    (OscilloscopeAPI.get_streaming_data scenarioE 0 "S1" (some 0)).has_more
      = true ∧
    (OscilloscopeAPI.get_streaming_data scenarioE 0 "S1"
      (some 0)).latest_timestamp = some 30 ∧
    (OscilloscopeAPI.get_streaming_data scenarioE 0 "S1" (some 30)).new_points
      = 0 ∧
    (OscilloscopeAPI.get_streaming_data scenarioE 0 "S1" (some 30)).has_more
      = false :=
  ⟨by decide, by decide, by decide,
   ((streaming_data_since_cursor scenarioE 0 0 "S1" 0).2.2 (by decide) 30
     (by decide)).1,
   ((streaming_data_since_cursor scenarioE 0 0 "S1" 0).2.2 (by decide) 30
     (by decide)).2⟩

theorem DataBuffer.add_reading_length_le (b : DataBuffer) (r : StrainReading)
    (h : b.buffer.length ≤ b.max_size) :
    (b.add_reading r).buffer.length ≤ b.max_size := by
  simp only [DataBuffer.add_reading]
  split
  · next hc =>
    dsimp only
    simp only [List.length_append, List.length_cons, List.length_nil] at hc
    simp only [List.length_drop, List.length_append, List.length_cons,
      List.length_nil]
    omega
  · next hc =>
    dsimp only
    simp only [List.length_append, List.length_cons] at hc
    simp only [List.length_append, List.length_cons]
    omega

theorem DataBuffer.add_readings_length_le (b : DataBuffer)
    (rs : List StrainReading) (h : b.buffer.length ≤ b.max_size) :
    (b.add_readings rs).buffer.length ≤ b.max_size := by
  simp only [DataBuffer.add_readings]
  split
  · next hc =>
    dsimp only
    simp only [List.length_append] at hc
    simp only [List.length_drop, List.length_append]
    omega
  · next hc =>
    dsimp only
    simp only [List.length_append] at hc
    simp only [List.length_append]
    omega

theorem OscilloscopeStreamer.add_reading_stream_bound
    (st : OscilloscopeStreamer) (r : StrainReading)
    (h : ∀ sid, (st.data_streams sid).length ≤ st.max_points) :
    ∀ sid, ((st.add_reading r).data_streams sid).length ≤ st.max_points := by
  intro sid
  simp only [OscilloscopeStreamer.add_reading]
  by_cases hsid : sid = r.sensor_id
  · rw [if_pos hsid]
    split
    · next hc =>
      simp only [List.length_append, List.length_cons, List.length_nil] at hc
      simp only [List.length_drop, List.length_append, List.length_cons,
        List.length_nil]
      have := h r.sensor_id
      omega
    · next hc =>
      simp only [List.length_append, List.length_cons] at hc
      simp only [List.length_append, List.length_cons]
      omega
  · rw [if_neg hsid]
    exact h sid

theorem OscilloscopeStreamer.foldl_add_reading_max (rs : List StrainReading)
    (st : OscilloscopeStreamer) :
    (rs.foldl OscilloscopeStreamer.add_reading st).max_points =
      st.max_points := by
  induction rs generalizing st with
  | nil => rfl
  | cons r rest ih =>
    simp only [List.foldl_cons]
    rw [ih]
    rfl

theorem OscilloscopeStreamer.foldl_add_reading_length_le
    (rs : List StrainReading) (st : OscilloscopeStreamer)
    (h : ∀ sid, (st.data_streams sid).length ≤ st.max_points) :
    ∀ sid, ((rs.foldl OscilloscopeStreamer.add_reading st).data_streams
      sid).length ≤ st.max_points := by
  induction rs generalizing st with
  | nil => exact h
  | cons r rest ih =>
    simp only [List.foldl_cons]
    exact ih (st.add_reading r)
      (OscilloscopeStreamer.add_reading_stream_bound st r h)

theorem DataBuffer.add_reading_max_size (b : DataBuffer)
    (r : StrainReading) : (b.add_reading r).max_size = b.max_size := by
  simp only [DataBuffer.add_reading]
  split <;> rfl

theorem DataBuffer.add_readings_max_size (b : DataBuffer)
    (rs : List StrainReading) : (b.add_readings rs).max_size = b.max_size := by
  simp only [DataBuffer.add_readings]
  split <;> rfl

theorem DataManager.flush_buffer_eq (m : DataManager) (now : Nat) :
    m.flush_buffer now =
      if m.buffer.get_readings none none none none = [] then m
      else
        { m with
          database := m.database.store_readings
                        (m.buffer.get_readings none none none none),
          buffer := { m.buffer with buffer := [], last_flush := now } } := rfl

theorem DataManager.flush_buffer_invariant (m : DataManager) (now : Nat)
    (h : bufferInvariant m) : bufferInvariant (m.flush_buffer now) := by
  rw [DataManager.flush_buffer_eq]
  split
  · exact h
  · exact ⟨by simp, h.2⟩

theorem DataManager.flush_buffer_fields (m : DataManager) (now : Nat) :
    (m.flush_buffer now).buffer.max_size = m.buffer.max_size ∧
    (m.flush_buffer now).oscilloscope_streamer = m.oscilloscope_streamer := by
  rw [DataManager.flush_buffer_eq]
  split
  · exact ⟨rfl, rfl⟩
  · exact ⟨rfl, rfl⟩

theorem DataManager.add_reading_eq (m : DataManager) (now : Nat)
    (r : StrainReading) :
    m.add_reading now r =
      if (m.buffer.add_reading r).should_flush now then
        ({ m with
           buffer := m.buffer.add_reading r,
           oscilloscope_streamer :=
             m.oscilloscope_streamer.add_reading r } :
           DataManager).flush_buffer now
      else
        { m with
          buffer := m.buffer.add_reading r,
          oscilloscope_streamer :=
            m.oscilloscope_streamer.add_reading r } := rfl

theorem DataManager.add_readings_eq (m : DataManager) (now : Nat)
    (rs : List StrainReading) :
    m.add_readings now rs =
      if (m.buffer.add_readings rs).should_flush now then
        ({ m with
           buffer := m.buffer.add_readings rs,
           oscilloscope_streamer :=
             rs.foldl OscilloscopeStreamer.add_reading
               m.oscilloscope_streamer } : DataManager).flush_buffer now
      else
        { m with
          buffer := m.buffer.add_readings rs,
          oscilloscope_streamer :=
            rs.foldl OscilloscopeStreamer.add_reading
              m.oscilloscope_streamer } := rfl

theorem DataManager.apply_op_invariant (m : DataManager) (op : IngestOp)
    (h : bufferInvariant m) :
    bufferInvariant (m.apply_op op) ∧
    (m.apply_op op).buffer.max_size = m.buffer.max_size ∧
    (m.apply_op op).oscilloscope_streamer.max_points =
      m.oscilloscope_streamer.max_points := by
  cases op with
  | single now r =>
    have happ : m.apply_op (IngestOp.single now r) = m.add_reading now r := rfl
    rw [happ, DataManager.add_reading_eq]
    have hb : bufferInvariant
        ({ m with
           buffer := m.buffer.add_reading r,
           oscilloscope_streamer :=
             m.oscilloscope_streamer.add_reading r } : DataManager) := by
      refine ⟨?_, ?_⟩
      · show (m.buffer.add_reading r).buffer.length ≤
          (m.buffer.add_reading r).max_size
        rw [DataBuffer.add_reading_max_size]
        exact DataBuffer.add_reading_length_le m.buffer r h.1
      · intro sid
        exact OscilloscopeStreamer.add_reading_stream_bound
          m.oscilloscope_streamer r h.2 sid
    split
    · refine ⟨DataManager.flush_buffer_invariant _ now hb, ?_, ?_⟩
      · rw [(DataManager.flush_buffer_fields _ now).1]
        exact DataBuffer.add_reading_max_size m.buffer r
      · rw [(DataManager.flush_buffer_fields _ now).2]
        rfl
    · refine ⟨hb, ?_, rfl⟩
      exact DataBuffer.add_reading_max_size m.buffer r
  | batch now rs =>
    have happ : m.apply_op (IngestOp.batch now rs) = m.add_readings now rs :=
      rfl
    rw [happ, DataManager.add_readings_eq]
    have hb : bufferInvariant
        ({ m with
           buffer := m.buffer.add_readings rs,
           oscilloscope_streamer :=
             rs.foldl OscilloscopeStreamer.add_reading
               m.oscilloscope_streamer } : DataManager) := by
      refine ⟨?_, ?_⟩
      · show (m.buffer.add_readings rs).buffer.length ≤
          (m.buffer.add_readings rs).max_size
        rw [DataBuffer.add_readings_max_size]
        exact DataBuffer.add_readings_length_le m.buffer rs h.1
      · intro sid
        show ((rs.foldl OscilloscopeStreamer.add_reading
          m.oscilloscope_streamer).data_streams sid).length ≤
          (rs.foldl OscilloscopeStreamer.add_reading
            m.oscilloscope_streamer).max_points
        rw [OscilloscopeStreamer.foldl_add_reading_max]
        exact OscilloscopeStreamer.foldl_add_reading_length_le rs
          m.oscilloscope_streamer h.2 sid
    split
    · refine ⟨DataManager.flush_buffer_invariant _ now hb, ?_, ?_⟩
      · rw [(DataManager.flush_buffer_fields _ now).1]
        exact DataBuffer.add_readings_max_size m.buffer rs
      · rw [(DataManager.flush_buffer_fields _ now).2]
        exact OscilloscopeStreamer.foldl_add_reading_max rs _
    · refine ⟨hb, ?_, ?_⟩
      · exact DataBuffer.add_readings_max_size m.buffer rs
      · exact OscilloscopeStreamer.foldl_add_reading_max rs _

theorem run_ops_invariant_aux (ops : List IngestOp) (m : DataManager)
    (h : bufferInvariant m) :
    bufferInvariant (m.run_ops ops) ∧
    (m.run_ops ops).buffer.max_size = m.buffer.max_size ∧
    (m.run_ops ops).oscilloscope_streamer.max_points =
      m.oscilloscope_streamer.max_points := by
  induction ops generalizing m with
  | nil => exact ⟨h, rfl, rfl⟩
  | cons op rest ih =>
    have h1 := DataManager.apply_op_invariant m op h
    have h2 := ih (m.apply_op op) h1.1
    have hrw : m.run_ops (op :: rest) = (m.apply_op op).run_ops rest := rfl
    rw [hrw]
    exact ⟨h2.1, h2.2.1.trans h1.2.1, h2.2.2.trans h1.2.2⟩

/-- Claim C8: for every sequence of single or batch Ingest calls starting from
a fresh pipeline, the Ingest Buffer never holds more readings than its
configured capacity and no per-sensor Ring Buffer holds more points than
its configured capacity. -/
theorem ingest_buffer_bounds (max_size flush_interval max_points : Nat)
    (ops : List IngestOp) :
    ((initManager max_size flush_interval max_points).run_ops
      ops).buffer.buffer.length ≤ max_size ∧
    ∀ sid, (((initManager max_size flush_interval max_points).run_ops
      ops).oscilloscope_streamer.data_streams sid).length ≤ max_points := by
  have h0 : bufferInvariant (initManager max_size flush_interval max_points) :=
    ⟨by simp [initManager], fun sid => by simp [initManager]⟩
  obtain ⟨⟨h1, h2⟩, h3, h4⟩ := run_ops_invariant_aux ops _ h0
  refine ⟨le_trans h1 (le_of_eq h3), fun sid => le_trans (h2 sid) (le_of_eq h4)⟩

/-- Claim C9: a reading whose battery or temperature is out of range is still
accepted into the Ingest Buffer and still returned by RecentReadings; it
is only flagged by is_valid, never rejected. -/
theorem invalid_reading_accepted (hash : String → Int) (ts : Nat)
    (sv raw : Int) (sid : String) (batt temp : Int)
    (ms fi mp now now2 minutes : Nat)
    (hbad : batt < 0 ∨ 100 < batt ∨ temp < -40 ∨ 85 < temp)
    (hms : 2 ≤ ms) (hfi : now < fi)
    (hts : now2 - minutes * 60 ≤ ts) :
    mkStrainReading hash ts sv raw sid batt temp none ∈
      ((initManager ms fi mp).add_reading now
        (mkStrainReading hash ts sv raw sid batt temp none)).buffer.buffer ∧
    mkStrainReading hash ts sv raw sid batt temp none ∈
      ((initManager ms fi mp).add_reading now
        (mkStrainReading hash ts sv raw sid batt temp
          none)).get_recent_readings now2 none minutes none ∧
    (mkStrainReading hash ts sv raw sid batt temp none).is_valid hash =
      false := by
  have hbuf : (initManager ms fi mp).buffer.add_reading
      (mkStrainReading hash ts sv raw sid batt temp none) =
      ⟨[mkStrainReading hash ts sv raw sid batt temp none], ms, fi, 0⟩ := by
    simp only [DataBuffer.add_reading, initManager, List.nil_append,
      List.length_cons, List.length_nil]
    rw [if_neg (by omega)]
  have hsf : (⟨[mkStrainReading hash ts sv raw sid batt temp none],
      ms, fi, 0⟩ : DataBuffer).should_flush now = false := by
    simp only [DataBuffer.should_flush, List.length_cons, List.length_nil]
    rw [decide_eq_false (by omega), decide_eq_false (by omega)]
    rfl
  have hstep : (initManager ms fi mp).add_reading now
      (mkStrainReading hash ts sv raw sid batt temp none) =
      { buffer := ⟨[mkStrainReading hash ts sv raw sid batt temp none],
          ms, fi, 0⟩,
        database := ⟨[]⟩,
        oscilloscope_streamer :=
          (initManager ms fi mp).oscilloscope_streamer.add_reading
            (mkStrainReading hash ts sv raw sid batt temp none) } := by
    rw [DataManager.add_reading_eq, hbuf, hsf]
    rfl
  have htsr : (mkStrainReading hash ts sv raw sid batt temp none).timestamp =
      ts := rfl
  have hfilter : decide (now2 - minutes * 60 ≤
      (mkStrainReading hash ts sv raw sid batt temp none).timestamp) =
      true := by
    rw [htsr]
    exact decide_eq_true hts
  refine ⟨?_, ?_, ?_⟩
  · rw [hstep]
    exact List.mem_cons_self _ _
  · rw [hstep]
    unfold DataManager.get_recent_readings
    simp only [DataBuffer.get_readings, DatabaseManager.get_readings,
      filterSensor, filterStart, filterEnd, List.filter_nil,
      List.filter_cons, hfilter, sortByTimestampDesc, sortByTimestamp,
      insertByTimestamp, dedupByKey]
    simp
  · rcases hbad with hb | hb | hb | hb
    · have hd : decide ((0 : Int) ≤
          (mkStrainReading hash ts sv raw sid batt temp none).battery_level) =
          false := decide_eq_false (by
        show ¬((0 : Int) ≤ batt)
        omega)
      simp [StrainReading.is_valid, hd]
    · have hd : decide
          ((mkStrainReading hash ts sv raw sid batt temp none).battery_level ≤
          (100 : Int)) = false := decide_eq_false (by
        show ¬(batt ≤ (100 : Int))
        omega)
      simp [StrainReading.is_valid, hd]
    · have hd : decide ((-40 : Int) ≤
          (mkStrainReading hash ts sv raw sid batt temp none).temperature) =
          false := decide_eq_false (by
        show ¬((-40 : Int) ≤ temp)
        omega)
      simp [StrainReading.is_valid, hd]
    · have hd : decide
          ((mkStrainReading hash ts sv raw sid batt temp none).temperature ≤
          (85 : Int)) = false := decide_eq_false (by
        show ¬(temp ≤ (85 : Int))
        omega)
      simp [StrainReading.is_valid, hd]

/-- Witness for C9 at Scenario F: a reading with battery level 150 is
buffered, returned, and flagged invalid. -/
theorem invalid_reading_accepted_witness :
    mkStrainReading (fun _ => 0) 100 1 0 "S1" 150 20 none ∈
      ((initManager 10 1000 5).add_reading 0
        (mkStrainReading (fun _ => 0) 100 1 0 "S1" 150 20
          none)).buffer.buffer ∧
    mkStrainReading (fun _ => 0) 100 1 0 "S1" 150 20 none ∈
      ((initManager 10 1000 5).add_reading 0
        (mkStrainReading (fun _ => 0) 100 1 0 "S1" 150 20
          none)).get_recent_readings 100 none 0 none ∧
    (mkStrainReading (fun _ => 0) 100 1 0 "S1" 150 20 none).is_valid
      (fun _ => 0) = false :=
  invalid_reading_accepted (fun _ => 0) 100 1 0 "S1" 150 20 10 1000 5 0 100 0
    (by omega) (by omega) (by omega) (by omega)

/-- Claim C10: the auto-computed integrity checksum reads only the timestamp,
strain value, raw ADC value and battery level: readings agreeing on
those four fields hash identically for every hash function, and
rewriting sensor_id or temperature changes neither the computed checksum
nor the outcome of the checksum component of is_valid, so that component
can never detect corruption of those two fields. -/
theorem checksum_ignores_sensor_and_temperature (hash : String → Int)
    (r1 r2 : StrainReading)
    (hts : r1.timestamp = r2.timestamp)
    (hsv : r1.strain_value = r2.strain_value)
    (hraw : r1.raw_adc_value = r2.raw_adc_value)
    (hb : r1.battery_level = r2.battery_level) :
    r1.calculate_checksum hash = r2.calculate_checksum hash ∧
    (∀ (r : StrainReading) (s : String) (t : Int),
      ({ r with sensor_id := s } : StrainReading).calculate_checksum hash =
        r.calculate_checksum hash ∧
      ({ r with temperature := t } : StrainReading).calculate_checksum hash =
        r.calculate_checksum hash ∧
      (({ r with sensor_id := s } : StrainReading).checksum ==
        some (({ r with sensor_id := s } : StrainReading).calculate_checksum
          hash)) = (r.checksum == some (r.calculate_checksum hash)) ∧
      (({ r with temperature := t } : StrainReading).checksum ==
        some (({ r with temperature := t } : StrainReading).calculate_checksum
          hash)) = (r.checksum == some (r.calculate_checksum hash))) := by
  constructor
  · unfold StrainReading.calculate_checksum StrainReading.data_str
    rw [hts, hsv, hraw, hb]
  · intro r s t
    exact ⟨rfl, rfl, rfl, rfl⟩

/-- Witness for C10: two readings differing only in sensor id have equal
auto-computed checksums. -/
theorem checksum_ignores_witness :
    rBuf.calculate_checksum (fun _ => 0) =
      ({ rBuf with sensor_id := "S2" } : StrainReading).calculate_checksum
        (fun _ => 0) :=
  (checksum_ignores_sensor_and_temperature (fun _ => 0) rBuf
    { rBuf with sensor_id := "S2" } rfl rfl rfl rfl).1
